import Mathlib

/-!
Shallow embedding of the RAG service in `chat/rag_service.py`.

External collaborators (the Azure OpenAI embedding and chat clients, the
Pinecone index, the format-specific document loaders from langchain and the
MD5 hash from hashlib) are modelled as parameters gathered in environment
structures; remote calls that can raise are modelled with `Option` results.
Side effects on the vector store and the chat model are made observable
through explicit effect traces returned next to each function's result.
-/

namespace RAG

/-- A langchain `Document`: page content plus its `source` metadata. -/
structure Doc where
  page_content : String
  source : String
deriving Repr, DecidableEq

/-- Embedding vectors are opaque numeric payloads for every claim considered
here; their element type is immaterial (the code only passes them through). -/
abbrev Embedding := List Int

/-- A vector record as assembled by `ingest_file` and sent to Pinecone:
`{id, values, metadata: {text, source}}`. -/
structure VectorRecord where
  id : String
  values : Embedding
  text : String
  source : String
deriving Repr, DecidableEq

/-- Error kinds of `ingest_file`: `unsupportedFormat` models the
`ValueError("Unsupported file type")` raised on an unrecognized extension;
`loadError` a loader failure; `embeddingError` a failing remote embedding call. -/
inductive IngestError where
  | unsupportedFormat
  | loadError
  | embeddingError
deriving Repr, DecidableEq

/-- A python-pptx shape: `text` is `some t` when the shape exposes a text
attribute (the `hasattr(shape, "text")` test), `none` otherwise. -/
structure Shape where
  text : Option String
deriving Repr, DecidableEq

/-- A slide is its list of shapes, in shape order. -/
abbrev Slide := List Shape

/-- External collaborators of `ingest_file`: the three langchain loaders,
python-pptx (`Presentation`), the remote embedding client
(`embeddings.embed_query`, `none` models a raised exception) and
`hashlib.md5(...).hexdigest()`. -/
structure IngestEnv where
  loadPdf : String → Option (List Doc)
  loadTxt : String → Option (List Doc)
  loadDocx : String → Option (List Doc)
  prs : String → Option (List Slide)
  embed_query : String → Option Embedding
  md5hex : String → String

/-- Python `str.endswith(post)`: `post` is a literal suffix of the string,
compared case-sensitively character by character. -/
def endsWithS (s post : String) : Bool := decide (post.data <:+ s.data)

/-- Python `os.path.basename`: the part of the path after the last slash. -/
def basename (p : String) : String :=
  String.mk ((p.data.reverse.takeWhile (fun c => c != '/')).reverse)

/-- Equality of modelled fallible results is decidable. -/
instance instDecidableEqExcept {ε α : Type} [DecidableEq ε] [DecidableEq α] :
    DecidableEq (Except ε α) := fun a b =>
  match a, b with
  | .error e, .error e' =>
    if h : e = e' then .isTrue (by rw [h]) else .isFalse (by simp [h])
  | .ok v, .ok v' =>
    if h : v = v' then .isTrue (by rw [h]) else .isFalse (by simp [h])
  | .error _, .ok _ => .isFalse (by simp)
  | .ok _, .error _ => .isFalse (by simp)

/-- The supported file formats of `ingest_file`. -/
inductive FileFormat where
  | pdf
  | txt
  | docx
  | pptx
deriving Repr, DecidableEq

/-- The extension dispatch of `ingest_file` (its `if/elif` chain on
`file_path.endswith(...)`, in source order); `none` is the `else` branch. -/
def dispatchFormat (file_path : String) : Option FileFormat :=
  if endsWithS file_path ".pdf" then some .pdf
  else if endsWithS file_path ".txt" then some .txt
  else if endsWithS file_path ".docx" then some .docx
  else if endsWithS file_path ".pptx" then some .pptx
  else none

/-- The inner `for shape in slide.shapes` loop of the pptx branch: collect
`shape.text` for every shape that exposes a text attribute, in order. -/
def collectSlideText : List Shape → List String
  | [] => []
  | shape :: rest =>
    match shape.text with
    | some t => t :: collectSlideText rest
    | none => collectSlideText rest

/-- The outer `for slide in prs.slides` loop: concatenate the per-slide
text lists in slide order. -/
def collectSlidesText : List Slide → List String
  | [] => []
  | slide :: rest => collectSlideText slide ++ collectSlidesText rest

/-- Lift a loader result: a raised loader exception propagates. -/
def ofLoad (r : Option (List Doc)) : Except IngestError (List Doc) :=
  match r with
  | some docs => .ok docs
  | none => .error .loadError

/-- The loading phase of `ingest_file` (lines 125-146): dispatch on the
extension; pdf/txt/docx delegate to their loader; pptx joins the collected
shape texts with newlines into a single `Document` whose `source` metadata is
the full file path; any other extension raises `Unsupported file type`. -/
def loadDocuments (env : IngestEnv) (file_path : String) : Except IngestError (List Doc) :=
  match dispatchFormat file_path with
  | some .pdf => ofLoad (env.loadPdf file_path)
  | some .txt => ofLoad (env.loadTxt file_path)
  | some .docx => ofLoad (env.loadDocx file_path)
  | some .pptx =>
    match env.prs file_path with
    | some slides =>
      let full_text := String.intercalate "\n" (collectSlidesText slides)
      .ok [{ page_content := full_text, source := file_path }]
    | none => .error .loadError
  | none => .error .unsupportedFormat

/-- `RecursiveCharacterTextSplitter(chunk_size=1000, ...)` configuration. -/
def chunk_size : Nat := 1000

/-- `RecursiveCharacterTextSplitter(..., chunk_overlap=200)` configuration. -/
def chunk_overlap : Nat := 200

/-- Modelled from the spec: the Chunker itself (`RecursiveCharacterTextSplitter`
from the langchain library) is not part of this repository's sources, only its
configuration is. Per spec §4.2 it greedily produces chunks of at most
`chunk_size` characters, consecutive chunks overlapping by `chunk_overlap`
characters, in document order; modelled as a sliding character window whose
step is `chunk_size - chunk_overlap`. The first argument is structural fuel,
always called with at least the text length. -/
def splitChars : Nat → List Char → List (List Char)
  | 0, cs => [cs]
  | fuel + 1, cs =>
    if cs.length ≤ chunk_size then [cs]
    else cs.take chunk_size :: splitChars fuel (cs.drop (chunk_size - chunk_overlap))

/-- Chunk one text into strings using the modelled splitter. -/
def splitText (s : String) : List String :=
  (splitChars s.data.length s.data).map (fun cs => String.mk cs)

/-- `splitter.split_documents(documents)`: chunk each document's content,
every chunk keeping the source metadata of its origin document, document
order preserved. -/
def split_documents (docs : List Doc) : List Doc :=
  docs.flatMap (fun d => (splitText d.page_content).map
    (fun c => { page_content := c, source := d.source }))

/-- The embedding loop of `ingest_file` (lines 152-166): for each chunk in
order, call the remote embedding client, then assemble the `VectorRecord`
with id `md5(basename(file_path)) ++ "-" ++ i` and metadata
`{text: chunk content, source: basename(file_path)}`. The first component of
the result is the list of embedding calls performed (a raised embedding
exception stops the loop); the second is the assembled batch or the error. -/
def buildVectors (env : IngestEnv) (file_path : String) :
    List Doc → Nat → List String × Except IngestError (List VectorRecord)
  | [], _ => ([], .ok [])
  | chunk :: rest, i =>
    match env.embed_query chunk.page_content with
    | none => ([chunk.page_content], .error .embeddingError)
    | some embedding =>
      let file_id := env.md5hex (basename file_path)
      let vector_id := file_id ++ "-" ++ toString i
      let v : VectorRecord :=
        { id := vector_id, values := embedding,
          text := chunk.page_content, source := basename file_path }
      let r := buildVectors env file_path rest (i + 1)
      (chunk.page_content :: r.1, r.2.map (fun vs => v :: vs))

/-- Observable side effects of one `ingest_file` call: the texts sent to the
embedding client, in order, and the batches sent to `index.upsert`. -/
structure IngestEffects where
  embeds : List String
  upserts : List (List VectorRecord)
deriving Repr, DecidableEq

/-- The empty effect trace. -/
def noEffects : IngestEffects := { embeds := [], upserts := [] }

/-- `RAGService.ingest_file`: load, chunk, embed each chunk, then upsert the
whole batch in one call and return the success message. Any failure
propagates and aborts the remaining steps. -/
def ingest_file (env : IngestEnv) (file_path : String) :
    Except IngestError String × IngestEffects :=
  match loadDocuments env file_path with
  | .error e => (.error e, noEffects)
  | .ok documents =>
    let chunks := split_documents documents
    match buildVectors env file_path chunks 0 with
    | (embeds, .error e) => (.error e, { embeds := embeds, upserts := [] })
    | (embeds, .ok vectors) =>
      (.ok ("Ingested " ++ toString chunks.length ++ " chunks from " ++ basename file_path),
       { embeds := embeds, upserts := [vectors] })

/-- A chat message: `SystemMessage` or `HumanMessage` with its content. -/
inductive Message where
  | system (content : String)
  | human (content : String)
deriving Repr, DecidableEq

/-- One Pinecone match as consumed by `generate_response`: only its
`metadata['text']` field is read. -/
structure MatchRec where
  text : String
deriving Repr, DecidableEq

/-- External collaborators of the generation functions: the embedding client,
the Pinecone `index.query` (arguments: vector, `top_k`, `include_metadata`)
and the chat model `llm.invoke`. -/
structure GenEnv where
  embed_query : String → Embedding
  query : Embedding → Nat → Bool → List MatchRec
  llm : List Message → String

/-- Observable side effects of one generation call: the `(top_k,
include_metadata)` arguments of each vector-store query, and the message
lists sent to the chat model. -/
structure GenEffects where
  storeQueries : List (Nat × Bool)
  chatCalls : List (List Message)
deriving Repr, DecidableEq

/-- The fixed system instruction of `generate_response` (lines 210-216). -/
def responseSystemInstruction : String :=
  "Tu es un assistant professionnel et précis. " ++
  "Réponds de manière claire, structurée et complète, uniquement en texte simple. " ++
  "Ne mets pas de gras, pas de titres en Markdown, pas d'étoiles, ni de symboles spéciaux. " ++
  "Chaque fois que tu utilises un tiret pour lister des éléments, commence une nouvelle ligne après le tiret. " ++
  "Utilise des paragraphes et phrases lisibles pour un style professionnel."

/-- The context assembled by `generate_response`: the matched texts joined by
a blank line, in the order returned by the store. -/
def contextOf (ms : List MatchRec) : String :=
  String.intercalate "\n\n" (ms.map (fun m => m.text))

/-- The message list `generate_response` sends to the chat model: the fixed
system instruction plus one user turn `Contexte:\n{context}\n\nQuestion: {query}`. -/
def responseMessages (ms : List MatchRec) (query : String) : List Message :=
  [ Message.system responseSystemInstruction,
    Message.human ("Contexte:\n" ++ contextOf ms ++ "\n\nQuestion: " ++ query) ]

/-- `RAGService.generate_response`: embed the query, query Pinecone with
`top_k=3, include_metadata=True`; if no matches, return the sentinel string
without calling the chat model; otherwise build the context and invoke the
chat model on the assembled messages. -/
def generate_response (env : GenEnv) (query : String) : String × GenEffects :=
  let query_embedding := env.embed_query query
  let results := env.query query_embedding 3 true
  if results.isEmpty then
    ("No documents ingested yet.", { storeQueries := [(3, true)], chatCalls := [] })
  else
    let messages := responseMessages results query
    (env.llm messages, { storeQueries := [(3, true)], chatCalls := [messages] })

/-- The whitespace characters stripped by Python `str.strip()` (restricted to
the ASCII whitespace the spec's examples use). -/
def isPySpace (c : Char) : Bool :=
  c = ' ' || c = '\t' || c = '\n' || c = '\x0d' || c = '\x0b' || c = '\x0c'

/-- Python `str.strip()`: drop leading and trailing whitespace characters. -/
def pyStrip (s : String) : String :=
  String.mk (((s.data.dropWhile isPySpace).reverse.dropWhile isPySpace).reverse)

/-- The fixed system instruction of `generate_title` (line 241). -/
def titleSystemInstruction : String :=
  "Tu es un expert en synthèse. Génère un titre très court (max 5-6 mots) et professionnel pour cette conversation. Ne mets pas de guillemets, pas de point final."

/-- The message list `generate_title` sends to the chat model. -/
def titleMessages (user_message ai_response : String) : List Message :=
  [ Message.system titleSystemInstruction,
    Message.human ("Message utilisateur: " ++ user_message ++ "\nRéponse AI: " ++
      ai_response ++ "\n\nTitre:") ]

/-- `RAGService.generate_title`: one chat-model call on the fixed title
prompt, the result stripped of surrounding whitespace. -/
def generate_title (env : GenEnv) (user_message ai_response : String) :
    String × GenEffects :=
  let messages := titleMessages user_message ai_response
  (pyStrip (env.llm messages), { storeQueries := [], chatCalls := [messages] })

end RAG

namespace RAG

/-- `endsWithS` unfolded to the list-suffix relation. -/
lemma endsWithS_iff {s post : String} : endsWithS s post = true ↔ post.data <:+ s.data := by
  simp [endsWithS]

/-- Two mutually non-suffix extension strings cannot both be suffixes of one path. -/
lemma endsWithS_excl {s a b : String} (h : endsWithS s a = true)
    (h1 : ¬ a.data <:+ b.data) (h2 : ¬ b.data <:+ a.data) : endsWithS s b = false := by
  rw [endsWithS, decide_eq_false_iff_not]
  intro hb
  rw [endsWithS_iff] at h
  rcases List.suffix_or_suffix_of_suffix h hb with h' | h'
  · exact h1 h'
  · exact h2 h'

/-- A path ending in `.txt` does not end in `.pdf`. -/
lemma txt_not_pdf {s : String} (h : endsWithS s ".txt" = true) : endsWithS s ".pdf" = false :=
  endsWithS_excl h (by decide) (by decide)

/-- A path ending in `.docx` does not end in `.pdf`. -/
lemma docx_not_pdf {s : String} (h : endsWithS s ".docx" = true) : endsWithS s ".pdf" = false :=
  endsWithS_excl h (by decide) (by decide)

/-- A path ending in `.docx` does not end in `.txt`. -/
lemma docx_not_txt {s : String} (h : endsWithS s ".docx" = true) : endsWithS s ".txt" = false :=
  endsWithS_excl h (by decide) (by decide)

/-- A path ending in `.pptx` does not end in `.pdf`. -/
lemma pptx_not_pdf {s : String} (h : endsWithS s ".pptx" = true) : endsWithS s ".pdf" = false :=
  endsWithS_excl h (by decide) (by decide)

/-- A path ending in `.pptx` does not end in `.txt`. -/
lemma pptx_not_txt {s : String} (h : endsWithS s ".pptx" = true) : endsWithS s ".txt" = false :=
  endsWithS_excl h (by decide) (by decide)

/-- A path ending in `.pptx` does not end in `.docx`. -/
lemma pptx_not_docx {s : String} (h : endsWithS s ".pptx" = true) : endsWithS s ".docx" = false :=
  endsWithS_excl h (by decide) (by decide)

/-- The literal suffix each branch of the dispatch tests. -/
def formatSuffix : FileFormat → String
  | .pdf => ".pdf"
  | .txt => ".txt"
  | .docx => ".docx"
  | .pptx => ".pptx"

/-- A path is dispatched as pdf iff it ends with `.pdf`. -/
lemma dispatch_pdf_iff (s : String) :
    dispatchFormat s = some .pdf ↔ endsWithS s ".pdf" = true := by
  constructor
  · intro h
    cases h1 : endsWithS s ".pdf" <;> cases h2 : endsWithS s ".txt" <;>
      cases h3 : endsWithS s ".docx" <;> cases h4 : endsWithS s ".pptx" <;>
      simp_all [dispatchFormat]
  · intro h
    simp [dispatchFormat, h]

/-- A path is dispatched as txt iff it ends with `.txt`. -/
lemma dispatch_txt_iff (s : String) :
    dispatchFormat s = some .txt ↔ endsWithS s ".txt" = true := by
  constructor
  · intro h
    cases h1 : endsWithS s ".pdf" <;> cases h2 : endsWithS s ".txt" <;>
      cases h3 : endsWithS s ".docx" <;> cases h4 : endsWithS s ".pptx" <;>
      simp_all [dispatchFormat]
  · intro h
    simp [dispatchFormat, h, txt_not_pdf h]

/-- A path is dispatched as docx iff it ends with `.docx`. -/
lemma dispatch_docx_iff (s : String) :
    dispatchFormat s = some .docx ↔ endsWithS s ".docx" = true := by
  constructor
  · intro h
    cases h1 : endsWithS s ".pdf" <;> cases h2 : endsWithS s ".txt" <;>
      cases h3 : endsWithS s ".docx" <;> cases h4 : endsWithS s ".pptx" <;>
      simp_all [dispatchFormat]
  · intro h
    simp [dispatchFormat, h, docx_not_pdf h, docx_not_txt h]

/-- A path is dispatched as pptx iff it ends with `.pptx`. -/
lemma dispatch_pptx_iff (s : String) :
    dispatchFormat s = some .pptx ↔ endsWithS s ".pptx" = true := by
  constructor
  · intro h
    cases h1 : endsWithS s ".pdf" <;> cases h2 : endsWithS s ".txt" <;>
      cases h3 : endsWithS s ".docx" <;> cases h4 : endsWithS s ".pptx" <;>
      simp_all [dispatchFormat]
  · intro h
    simp [dispatchFormat, h, pptx_not_pdf h, pptx_not_txt h, pptx_not_docx h]

/-- Dispatching to the `else` branch makes `ingest_file` fail with
`unsupportedFormat` and no effects. -/
lemma ingest_file_unsupported (env : IngestEnv) (path : String)
    (h : dispatchFormat path = none) :
    ingest_file env path = (.error .unsupportedFormat, noEffects) := by
  simp [ingest_file, loadDocuments, h]

end RAG

namespace RAG

/-- A concrete generation environment whose vector-store query returns no
matches (an empty index). -/
def emptyStoreEnv : GenEnv :=
  { embed_query := fun _ => [],
    query := fun _ _ _ => [],
    llm := fun _ => "LLM OUTPUT" }

/-- C1 counterexample: on an empty index `generate_response` does return a
fixed sentinel without a chat call, but the sentinel is the code's
"No documents ingested yet.", not the claim's quoted lowercase
"no documents ingested yet". -/
theorem c1_sentinel_string_counterexample :
    emptyStoreEnv.query (emptyStoreEnv.embed_query "hello") 3 true = [] ∧
    (generate_response emptyStoreEnv "hello").2.chatCalls = [] ∧
    (generate_response emptyStoreEnv "hello").1 ≠ "no documents ingested yet" := by
  refine ⟨rfl, rfl, ?_⟩
  decide

/-- C1 (amended): for every query, if the vector-store query returns no
matches, `generate_response` returns the fixed sentinel
"No documents ingested yet." and does not invoke the chat model. -/
theorem c1_empty_index_sentinel (env : GenEnv) (q : String)
    (h : env.query (env.embed_query q) 3 true = []) :
    (generate_response env q).1 = "No documents ingested yet." ∧
    (generate_response env q).2.chatCalls = [] := by
  simp [generate_response, h]

/-- C1 witness: the amended claim evaluated on a concrete empty-index
environment. -/
theorem c1_empty_index_sentinel_witness :
    (generate_response emptyStoreEnv "bonjour").1 = "No documents ingested yet." ∧
    (generate_response emptyStoreEnv "bonjour").2.chatCalls = [] :=
  c1_empty_index_sentinel emptyStoreEnv "bonjour" rfl

/-- C3: for every query with a non-empty retrieval result, `generate_response`
issues exactly one vector-store query with `top_k = 3` and
`include_metadata = true`, and sends the chat model exactly one call: the
fixed system instruction plus one user turn holding the matched texts joined
by a blank line in store order, followed by the original query; the returned
answer is the chat model's output on exactly that message list. -/
theorem c3_nonempty_prompt_assembly (env : GenEnv) (q : String)
    (h : env.query (env.embed_query q) 3 true ≠ []) :
    (generate_response env q).2.storeQueries = [(3, true)] ∧
    (generate_response env q).2.chatCalls =
      [responseMessages (env.query (env.embed_query q) 3 true) q] ∧
    (generate_response env q).1 =
      env.llm (responseMessages (env.query (env.embed_query q) 3 true) q) := by
  have h' : (env.query (env.embed_query q) 3 true).isEmpty = false := by
    cases hq : env.query (env.embed_query q) 3 true
    · exact absurd hq h
    · rfl
  simp [generate_response, h']

/-- A concrete generation environment whose store returns three fixed texts,
mirroring the spec's mocked-store test. -/
def threeMatchEnv : GenEnv :=
  { embed_query := fun _ => [],
    query := fun _ _ _ => [{ text := "alpha" }, { text := "beta" }, { text := "gamma" }],
    llm := fun _ => "REPONSE" }

/-- C3 witness: on the three-match environment the constructed user turn is
exactly `Contexte:\nalpha\n\nbeta\n\ngamma\n\nQuestion: Q?`. -/
theorem c3_nonempty_prompt_assembly_witness :
    (generate_response threeMatchEnv "Q?").2.storeQueries = [(3, true)] ∧
    (generate_response threeMatchEnv "Q?").2.chatCalls =
      [responseMessages (threeMatchEnv.query (threeMatchEnv.embed_query "Q?") 3 true) "Q?"] ∧
    (generate_response threeMatchEnv "Q?").1 =
      threeMatchEnv.llm
        (responseMessages (threeMatchEnv.query (threeMatchEnv.embed_query "Q?") 3 true) "Q?") ∧
    responseMessages (threeMatchEnv.query (threeMatchEnv.embed_query "Q?") 3 true) "Q?" =
      [ Message.system responseSystemInstruction,
        Message.human "Contexte:\nalpha\n\nbeta\n\ngamma\n\nQuestion: Q?" ] := by
  have h := c3_nonempty_prompt_assembly threeMatchEnv "Q?" (by decide)
  exact ⟨h.1, h.2.1, h.2.2, rfl⟩

/-- A concrete ingestion environment: every loader succeeds with a one-block
document, every embedding call succeeds, and the hash function is an
injective stand-in for MD5. -/
def sampleIngestEnv : IngestEnv :=
  { loadPdf := fun p => some [{ page_content := "pdf body", source := p }],
    loadTxt := fun p => some [{ page_content := "txt body", source := p }],
    loadDocx := fun p => some [{ page_content := "docx body", source := p }],
    prs := fun _ => some [[{ text := some "Title" }, { text := none }], [{ text := some "Body" }]],
    embed_query := fun _ => some [7],
    md5hex := fun s => "md5of:" ++ s }

/-- C2: for every path ending in none of `.pdf`, `.txt`, `.docx`, `.pptx`,
`ingest_file` fails with the unsupported-format error before any effect:
no embedding call and no upsert are performed. -/
theorem c2_unsupported_no_embedding (env : IngestEnv) (path : String)
    (h1 : endsWithS path ".pdf" = false) (h2 : endsWithS path ".txt" = false)
    (h3 : endsWithS path ".docx" = false) (h4 : endsWithS path ".pptx" = false) :
    ingest_file env path = (.error .unsupportedFormat, noEffects) := by
  apply ingest_file_unsupported
  simp [dispatchFormat, h1, h2, h3, h4]

/-- C2 witness: a `.xyz` path on the sample environment, refused with an
empty effect trace. -/
theorem c2_unsupported_no_embedding_witness :
    ingest_file sampleIngestEnv "essay.xyz" = (.error .unsupportedFormat, noEffects) :=
  c2_unsupported_no_embedding sampleIngestEnv "essay.xyz"
    (by decide) (by decide) (by decide) (by decide)

/-- C10: format dispatch is by case-sensitive literal suffix of the whole
path string: a path is dispatched to a format iff it ends with that format's
exact lowercase suffix; a path dispatched to no format is refused with
`unsupportedFormat` and no effects; uppercase `.PDF`/`.TXT` paths are
dispatched to no format. -/
theorem c10_dispatch_by_literal_suffix :
    (∀ env path, dispatchFormat path = none →
      ingest_file env path = (.error .unsupportedFormat, noEffects)) ∧
    (∀ path, (dispatchFormat path = some .pdf ↔ endsWithS path ".pdf" = true) ∧
             (dispatchFormat path = some .txt ↔ endsWithS path ".txt" = true) ∧
             (dispatchFormat path = some .docx ↔ endsWithS path ".docx" = true) ∧
             (dispatchFormat path = some .pptx ↔ endsWithS path ".pptx" = true)) ∧
    dispatchFormat "report.PDF" = none ∧ dispatchFormat "notes.TXT" = none := by
  refine ⟨ingest_file_unsupported, ?_, by decide, by decide⟩
  intro path
  exact ⟨dispatch_pdf_iff path, dispatch_txt_iff path,
    dispatch_docx_iff path, dispatch_pptx_iff path⟩

/-- C10 witness: the dispatch facts evaluated on concrete paths, the
hypothesis of the refusal conjunct discharged at `slides.PPTX`. -/
theorem c10_dispatch_by_literal_suffix_witness :
    ingest_file sampleIngestEnv "slides.PPTX" = (.error .unsupportedFormat, noEffects) ∧
    (dispatchFormat "a.pdf" = some .pdf ↔ endsWithS "a.pdf" ".pdf" = true) := by
  refine ⟨c10_dispatch_by_literal_suffix.1 sampleIngestEnv "slides.PPTX" (by decide), ?_⟩
  exact (c10_dispatch_by_literal_suffix.2.1 "a.pdf").1

end RAG

namespace RAG

/-- Whenever the embedding loop completes, it has embedded every chunk's
content in order, produced one record per chunk, and assembled each record
with the deterministic id `md5(basename) ++ "-" ++ index` and the
basename/chunk-text metadata. -/
lemma buildVectors_ok_spec (env : IngestEnv) (p : String) (chunks : List Doc) :
    ∀ (i0 : Nat) (calls : List String) (vs : List VectorRecord),
      buildVectors env p chunks i0 = (calls, .ok vs) →
      calls = chunks.map (fun c => c.page_content) ∧
      vs.length = chunks.length ∧
      ∀ j (hj : j < chunks.length) (hj' : j < vs.length),
        (vs.get ⟨j, hj'⟩).id = env.md5hex (basename p) ++ "-" ++ toString (i0 + j) ∧
        (vs.get ⟨j, hj'⟩).text = (chunks.get ⟨j, hj⟩).page_content ∧
        (vs.get ⟨j, hj'⟩).source = basename p := by
  induction chunks with
  | nil =>
    intro i0 calls vs h
    simp only [buildVectors] at h
    injection h with h1 h2
    injection h2 with h2
    subst h1; subst h2
    refine ⟨rfl, rfl, ?_⟩
    intro j hj
    exact absurd hj (Nat.not_lt_zero j)
  | cons chunk rest ih =>
    intro i0 calls vs h
    simp only [buildVectors] at h
    cases hemb : env.embed_query chunk.page_content with
    | none =>
      simp only [hemb] at h
      injection h with h1 h2
      exact Except.noConfusion h2
    | some emb =>
      simp only [hemb] at h
      cases hr : buildVectors env p rest (i0 + 1) with
      | mk rcalls rres =>
        simp only [hr] at h
        cases rres with
        | error e => simp [Except.map] at h
        | ok vs' =>
          simp only [Except.map] at h
          injection h with h1 h2
          injection h2 with h2
          subst h1; subst h2
          obtain ⟨ihc, ihl, ihj⟩ := ih (i0 + 1) rcalls vs' hr
          refine ⟨by simp [ihc], by simp [ihl], ?_⟩
          intro j hj hj'
          match j with
          | 0 =>
            refine ⟨?_, rfl, rfl⟩
            show env.md5hex (basename p) ++ "-" ++ toString i0 = _
            rw [Nat.add_zero]
          | Nat.succ j =>
            have hj2 : j < rest.length := by
              simpa using Nat.lt_of_succ_lt_succ hj
            have hj2' : j < vs'.length := by
              simpa using Nat.lt_of_succ_lt_succ hj'
            have step := ihj j hj2 hj2'
            have harith : i0 + (j + 1) = (i0 + 1) + j := by omega
            refine ⟨?_, ?_, ?_⟩
            · show (vs'.get ⟨j, hj2'⟩).id = _
              rw [step.1, harith]
            · show (vs'.get ⟨j, hj2'⟩).text = (rest.get ⟨j, hj2⟩).page_content
              exact step.2.1
            · exact step.2.2

/-- A successful `ingest_file` run has the success-message result, the
embedding-call list of the loop, and one single upsert batch. -/
lemma ingest_file_ok_shape (env : IngestEnv) (path : String) (docs : List Doc)
    (calls : List String) (vs : List VectorRecord)
    (hload : loadDocuments env path = .ok docs)
    (hbv : buildVectors env path (split_documents docs) 0 = (calls, .ok vs)) :
    ingest_file env path =
      (.ok ("Ingested " ++ toString (split_documents docs).length ++ " chunks from " ++
        basename path),
       { embeds := calls, upserts := [vs] }) := by
  simp only [ingest_file, hload, hbv]

/-- A failing `ingest_file` run performed no upsert. -/
lemma ingest_file_error_no_upsert (env : IngestEnv) (path : String) (e : IngestError)
    (h : (ingest_file env path).1 = .error e) :
    (ingest_file env path).2.upserts = [] := by
  cases hload : loadDocuments env path with
  | error e' => simp [ingest_file, hload, noEffects]
  | ok docs =>
    cases hbv : buildVectors env path (split_documents docs) 0 with
    | mk calls res =>
      cases res with
      | error e' => simp [ingest_file, hload, hbv]
      | ok vs =>
        rw [ingest_file_ok_shape env path docs calls vs hload hbv] at h
        simp at h

/-- An `ingest_file` run that upserted the batch `vs` went through a
successful load and a successful embedding loop producing exactly `vs`. -/
lemma ingest_file_upserts_inv (env : IngestEnv) (path : String) (vs : List VectorRecord)
    (h : (ingest_file env path).2.upserts = [vs]) :
    ∃ docs calls, loadDocuments env path = .ok docs ∧
      buildVectors env path (split_documents docs) 0 = (calls, .ok vs) := by
  simp only [ingest_file] at h
  cases hload : loadDocuments env path with
  | error e => simp [hload, noEffects] at h
  | ok docs =>
    simp only [hload] at h
    cases hbv : buildVectors env path (split_documents docs) 0 with
    | mk calls res =>
      simp only [hbv] at h
      cases res with
      | error e => simp at h
      | ok vs' =>
        simp at h
        exact ⟨docs, calls, rfl, by rw [hbv, h]⟩

end RAG

namespace RAG

/-- C4: every record upserted by `ingest_file` has id
`md5hex(basename(file_path)) ++ "-" ++ i` for its position `i`, so ids are
deterministic in (basename, position): a second ingestion whose path has the
same basename produces identical ids at identical positions. -/
theorem c4_deterministic_vector_ids (env : IngestEnv) (p p' : String)
    (vs vs' : List VectorRecord)
    (hup : (ingest_file env p).2.upserts = [vs])
    (hup' : (ingest_file env p').2.upserts = [vs'])
    (hbase : basename p' = basename p) :
    (∀ i (hi : i < vs.length),
      (vs.get ⟨i, hi⟩).id = env.md5hex (basename p) ++ "-" ++ toString i) ∧
    (∀ i (hi : i < vs.length) (hi' : i < vs'.length),
      (vs'.get ⟨i, hi'⟩).id = (vs.get ⟨i, hi⟩).id) := by
  obtain ⟨docs, calls, hload, hbv⟩ := ingest_file_upserts_inv env p vs hup
  obtain ⟨docs', calls', hload', hbv'⟩ := ingest_file_upserts_inv env p' vs' hup'
  obtain ⟨-, hlen, hid⟩ := buildVectors_ok_spec env p (split_documents docs) 0 calls vs hbv
  obtain ⟨-, hlen', hid'⟩ :=
    buildVectors_ok_spec env p' (split_documents docs') 0 calls' vs' hbv'
  have base : ∀ i (hi : i < vs.length),
      (vs.get ⟨i, hi⟩).id = env.md5hex (basename p) ++ "-" ++ toString i := by
    intro i hi
    have hj := (hid i (hlen ▸ hi) hi).1
    rw [Nat.zero_add] at hj
    exact hj
  refine ⟨base, ?_⟩
  intro i hi hi'
  have hj' := (hid' i (hlen' ▸ hi') hi').1
  rw [Nat.zero_add, hbase] at hj'
  rw [hj', base i hi]

/-- The record `ingest_file` on the sample environment upserts for
`a/report.txt` (and, identically, for `b/report.txt`). -/
def sampleRecordReport : VectorRecord :=
  { id := "md5of:report.txt-0", values := [7], text := "txt body", source := "report.txt" }

/-- C4 witness: ingesting `a/report.txt` and `b/report.txt` (same basename)
on the sample environment yields the same deterministic id at position 0. -/
theorem c4_deterministic_vector_ids_witness :
    ([sampleRecordReport].get ⟨0, by decide⟩).id =
      sampleIngestEnv.md5hex (basename "a/report.txt") ++ "-" ++ toString 0 ∧
    ([sampleRecordReport].get ⟨0, by decide⟩).id = ([sampleRecordReport].get ⟨0, by decide⟩).id := by
  have h := c4_deterministic_vector_ids sampleIngestEnv "a/report.txt" "b/report.txt"
    [sampleRecordReport] [sampleRecordReport] (by decide) (by decide) (by decide)
  exact ⟨h.1 0 (by decide), h.2 0 (by decide) (by decide)⟩

/-- C5: `ingest_file` is all-or-nothing towards the vector store: a failing
run (unsupported format, load failure, or any chunk's embedding failing)
performs no upsert at all, while a run whose loading and embedding loop
succeed embeds every chunk in order and upserts exactly one batch holding one
record per chunk. -/
theorem c5_single_batch_all_or_nothing (env : IngestEnv) (path : String) :
    (∀ e, (ingest_file env path).1 = .error e → (ingest_file env path).2.upserts = []) ∧
    (∀ docs calls vs, loadDocuments env path = .ok docs →
      buildVectors env path (split_documents docs) 0 = (calls, .ok vs) →
      (ingest_file env path).2.embeds =
        (split_documents docs).map (fun c => c.page_content) ∧
      (ingest_file env path).2.upserts = [vs] ∧
      vs.length = (split_documents docs).length) := by
  refine ⟨fun e h => ingest_file_error_no_upsert env path e h, ?_⟩
  intro docs calls vs hload hbv
  have hshape := ingest_file_ok_shape env path docs calls vs hload hbv
  have hspec := buildVectors_ok_spec env path (split_documents docs) 0 calls vs hbv
  rw [hshape]
  exact ⟨hspec.1, rfl, hspec.2.1⟩

/-- A concrete ingestion environment whose embedding client always raises. -/
def failingEmbedEnv : IngestEnv :=
  { loadPdf := fun p => some [{ page_content := "pdf body", source := p }],
    loadTxt := fun p => some [{ page_content := "boom", source := p }],
    loadDocx := fun p => some [{ page_content := "docx body", source := p }],
    prs := fun _ => some [],
    embed_query := fun _ => none,
    md5hex := fun s => "md5of:" ++ s }

/-- The record `ingest_file` on the sample environment upserts for `doc.txt`. -/
def sampleRecordDoc : VectorRecord :=
  { id := "md5of:doc.txt-0", values := [7], text := "txt body", source := "doc.txt" }

/-- C5 witness: a failing embedding call aborts ingestion after the attempted
embed with no upsert, while a fully successful run upserts one batch. -/
theorem c5_single_batch_all_or_nothing_witness :
    (ingest_file failingEmbedEnv "note.txt").1 = .error .embeddingError ∧
    (ingest_file failingEmbedEnv "note.txt").2.upserts = [] ∧
    (ingest_file failingEmbedEnv "note.txt").2.embeds = ["boom"] ∧
    (ingest_file sampleIngestEnv "doc.txt").2.upserts = [[sampleRecordDoc]] := by
  refine ⟨by decide,
    (c5_single_batch_all_or_nothing failingEmbedEnv "note.txt").1 .embeddingError (by decide),
    by decide, ?_⟩
  exact ((c5_single_batch_all_or_nothing sampleIngestEnv "doc.txt").2
    [{ page_content := "txt body", source := "doc.txt" }] ["txt body"] [sampleRecordDoc]
    (by decide) (by decide)).2.1

/-- C9: every record upserted by `ingest_file` carries as its `source`
metadata the basename of the ingested path (not the loader's full path) and
as its `text` metadata exactly its chunk's content. -/
theorem c9_metadata_source_basename (env : IngestEnv) (path : String)
    (vs : List VectorRecord)
    (hup : (ingest_file env path).2.upserts = [vs]) :
    ∃ docs, loadDocuments env path = .ok docs ∧
      vs.length = (split_documents docs).length ∧
      ∀ i (hi : i < (split_documents docs).length) (hi' : i < vs.length),
        (vs.get ⟨i, hi'⟩).source = basename path ∧
        (vs.get ⟨i, hi'⟩).text = ((split_documents docs).get ⟨i, hi⟩).page_content := by
  obtain ⟨docs, calls, hload, hbv⟩ := ingest_file_upserts_inv env path vs hup
  obtain ⟨-, hlen, hspec⟩ := buildVectors_ok_spec env path (split_documents docs) 0 calls vs hbv
  exact ⟨docs, hload, hlen, fun i hi hi' => ⟨(hspec i hi hi').2.2, (hspec i hi hi').2.1⟩⟩

/-- The record `ingest_file` on the sample environment upserts for
`dir/paper.txt`: its `source` metadata is the basename, not the full path. -/
def sampleRecordPaper : VectorRecord :=
  { id := "md5of:paper.txt-0", values := [7], text := "txt body", source := "paper.txt" }

/-- C9 witness: for the path `dir/paper.txt` the upserted record's `source`
is `paper.txt` and its `text` is the chunk's content. -/
theorem c9_metadata_source_basename_witness :
    ([sampleRecordPaper].get ⟨0, by decide⟩).source = "paper.txt" ∧
    ([sampleRecordPaper].get ⟨0, by decide⟩).text = "txt body" := by
  obtain ⟨docs, hload, hlen, hmeta⟩ :=
    c9_metadata_source_basename sampleIngestEnv "dir/paper.txt" [sampleRecordPaper] (by decide)
  have hdocs : [{ page_content := "txt body", source := "dir/paper.txt" }] = docs := by
    have heval : loadDocuments sampleIngestEnv "dir/paper.txt" =
        .ok [{ page_content := "txt body", source := "dir/paper.txt" }] := by decide
    rw [heval] at hload
    injection hload
  subst hdocs
  have h := hmeta 0 (by decide) (by decide)
  exact ⟨h.1.trans (by decide), h.2.trans (by decide)⟩

/-- The per-slide collection loop is exactly `filterMap` over the shapes'
optional text. -/
lemma collectSlideText_eq (sl : List Shape) :
    collectSlideText sl = sl.filterMap (fun sh => sh.text) := by
  induction sl with
  | nil => rfl
  | cons sh rest ih =>
    cases h : sh.text <;> simp [collectSlideText, h, ih]

/-- The whole collection loop flattens the per-slide texts in slide order. -/
lemma collectSlidesText_eq (slides : List Slide) :
    collectSlidesText slides = slides.flatMap (fun sl => sl.filterMap (fun sh => sh.text)) := by
  induction slides with
  | nil => rfl
  | cons sl rest ih => simp [collectSlidesText, collectSlideText_eq, ih]

/-- Collection distributes over slide concatenation: slide order is kept. -/
lemma collectSlidesText_append (s1 s2 : List Slide) :
    collectSlidesText (s1 ++ s2) = collectSlidesText s1 ++ collectSlidesText s2 := by
  induction s1 with
  | nil => rfl
  | cons sl rest ih => simp [collectSlidesText, ih]

/-- C8: for a `.pptx` path, the loader yields one single document whose text
is the text of every text-exposing shape, across every slide in slide order,
joined by newlines, and whose `source` metadata is the file path. -/
theorem c8_pptx_single_document (env : IngestEnv) (path : String) (slides : List Slide)
    (hext : endsWithS path ".pptx" = true)
    (hprs : env.prs path = some slides) :
    loadDocuments env path =
      .ok [{ page_content :=
               String.intercalate "\n"
                 (slides.flatMap (fun sl => sl.filterMap (fun sh => sh.text))),
             source := path }] ∧
    (∀ s1 s2 : List Slide,
      collectSlidesText (s1 ++ s2) = collectSlidesText s1 ++ collectSlidesText s2) := by
  have hd : dispatchFormat path = some .pptx := (dispatch_pptx_iff path).mpr hext
  refine ⟨?_, collectSlidesText_append⟩
  simp [loadDocuments, hd, hprs, collectSlidesText_eq]

/-- C8 witness: a two-slide deck with a textless shape loads as the single
document `Title\nBody` with the path as source. -/
theorem c8_pptx_single_document_witness :
    loadDocuments sampleIngestEnv "deck.pptx" =
      .ok [{ page_content := "Title\nBody", source := "deck.pptx" }] := by
  have h := c8_pptx_single_document sampleIngestEnv "deck.pptx"
    [[{ text := some "Title" }, { text := none }], [{ text := some "Body" }]]
    (by decide) rfl
  exact h.1.trans (by decide)

end RAG

namespace RAG

/-- Once the fuel is at least the text length, its exact value is irrelevant. -/
lemma splitChars_fuel_irrel : ∀ (f1 : Nat), ∀ (f2 : Nat) (cs : List Char),
    cs.length ≤ f1 → cs.length ≤ f2 → splitChars f1 cs = splitChars f2 cs := by
  intro f1
  induction f1 with
  | zero =>
    intro f2 cs h1 h2
    have hnil : cs = [] := List.eq_nil_of_length_eq_zero (Nat.le_zero.mp h1)
    subst hnil
    cases f2 with
    | zero => rfl
    | succ m => simp [splitChars, chunk_size]
  | succ f ih =>
    intro f2 cs h1 h2
    cases f2 with
    | zero =>
      have hnil : cs = [] := List.eq_nil_of_length_eq_zero (Nat.le_zero.mp h2)
      subst hnil
      simp [splitChars, chunk_size]
    | succ m =>
      by_cases hle : cs.length ≤ chunk_size
      · simp [splitChars, hle]
      · have hlen : (cs.drop (chunk_size - chunk_overlap)).length ≤ f := by
          rw [List.length_drop]
          simp only [chunk_size, chunk_overlap] at *
          omega
        have hlen2 : (cs.drop (chunk_size - chunk_overlap)).length ≤ m := by
          rw [List.length_drop]
          simp only [chunk_size, chunk_overlap] at *
          omega
        simp only [splitChars, if_neg hle]
        rw [ih m _ hlen hlen2]

/-- Each chunk of the modelled splitter is the 1000-character window starting
at 800 times its position: chunks appear in document order. -/
lemma splitChars_get (fuel : Nat) : ∀ (cs : List Char), cs.length ≤ fuel →
    ∀ k, k < (splitChars fuel cs).length →
      (splitChars fuel cs)[k]? = some ((cs.drop (800 * k)).take 1000) := by
  induction fuel with
  | zero =>
    intro cs hcs k hk
    have hnil : cs = [] := List.eq_nil_of_length_eq_zero (Nat.le_zero.mp hcs)
    subst hnil
    have hk0 : k = 0 := by
      simp only [splitChars, List.length_cons, List.length_nil] at hk
      omega
    subst hk0
    simp [splitChars]
  | succ f ih =>
    intro cs hcs k hk
    by_cases hle : cs.length ≤ chunk_size
    · have hres : splitChars (f + 1) cs = [cs] := by
        simp [splitChars, hle]
      have hk0 : k = 0 := by
        rw [hres] at hk
        simp only [List.length_cons, List.length_nil] at hk
        omega
      subst hk0
      have h1000 : cs.length ≤ 1000 := by
        simpa [chunk_size] using hle
      rw [hres]
      simp [List.take_of_length_le h1000]
    · have hres : splitChars (f + 1) cs =
          cs.take chunk_size :: splitChars f (cs.drop (chunk_size - chunk_overlap)) := by
        simp [splitChars, hle]
      have hlen : (cs.drop (chunk_size - chunk_overlap)).length ≤ f := by
        rw [List.length_drop]
        simp only [chunk_size, chunk_overlap] at *
        omega
      match k with
      | 0 =>
        rw [hres]
        simp only [List.getElem?_cons_zero, Nat.mul_zero, List.drop_zero]
        rfl
      | Nat.succ k =>
        have hk' : k < (splitChars f (cs.drop (chunk_size - chunk_overlap))).length := by
          rw [hres] at hk
          simpa using Nat.lt_of_succ_lt_succ hk
        have step := ih (cs.drop (chunk_size - chunk_overlap)) hlen k hk'
        rw [hres, List.getElem?_cons_succ, step, List.drop_drop]
        have harith : (chunk_size - chunk_overlap) + 800 * k = 800 * (k + 1) := by
          simp only [chunk_size, chunk_overlap]
          omega
        rw [harith]

/-- Every chunk of the modelled splitter holds at most 1000 characters. -/
lemma splitChars_le (fuel : Nat) : ∀ (cs : List Char), cs.length ≤ fuel →
    ∀ c ∈ splitChars fuel cs, c.length ≤ 1000 := by
  induction fuel with
  | zero =>
    intro cs hcs c hc
    have hnil : cs = [] := List.eq_nil_of_length_eq_zero (Nat.le_zero.mp hcs)
    subst hnil
    simp only [splitChars, List.mem_singleton] at hc
    simp [hc]
  | succ f ih =>
    intro cs hcs c hc
    by_cases hle : cs.length ≤ chunk_size
    · simp only [splitChars, if_pos hle, List.mem_singleton] at hc
      subst hc
      simpa [chunk_size] using hle
    · simp only [splitChars, if_neg hle, List.mem_cons] at hc
      rcases hc with hc | hc
      · subst hc
        simp [chunk_size]
      · have hlen : (cs.drop (chunk_size - chunk_overlap)).length ≤ f := by
          rw [List.length_drop]
          simp only [chunk_size, chunk_overlap] at *
          omega
        exact ih (cs.drop (chunk_size - chunk_overlap)) hlen c hc

/-- Every non-final chunk covers a window extending strictly past 1000
characters of the remaining text. -/
lemma splitChars_full (fuel : Nat) : ∀ (cs : List Char), cs.length ≤ fuel →
    ∀ k, k + 1 < (splitChars fuel cs).length → 1000 < (cs.drop (800 * k)).length := by
  induction fuel with
  | zero =>
    intro cs hcs k hk
    have hnil : cs = [] := List.eq_nil_of_length_eq_zero (Nat.le_zero.mp hcs)
    subst hnil
    simp only [splitChars, List.length_cons, List.length_nil] at hk
    omega
  | succ f ih =>
    intro cs hcs k hk
    by_cases hle : cs.length ≤ chunk_size
    · rw [show splitChars (f + 1) cs = [cs] by simp [splitChars, hle]] at hk
      simp at hk
    · have hres : splitChars (f + 1) cs =
          cs.take chunk_size :: splitChars f (cs.drop (chunk_size - chunk_overlap)) := by
        simp [splitChars, hle]
      have hlen : (cs.drop (chunk_size - chunk_overlap)).length ≤ f := by
        rw [List.length_drop]
        simp only [chunk_size, chunk_overlap] at *
        omega
      match k with
      | 0 =>
        rw [Nat.mul_zero, List.drop_zero]
        simp only [chunk_size] at hle
        omega
      | Nat.succ k =>
        have hk' : k + 1 < (splitChars f (cs.drop (chunk_size - chunk_overlap))).length := by
          rw [hres] at hk
          simpa using Nat.lt_of_succ_lt_succ hk
        have step := ih (cs.drop (chunk_size - chunk_overlap)) hlen k hk'
        rw [List.drop_drop] at step
        have harith : (chunk_size - chunk_overlap) + 800 * k = 800 * (k + 1) := by
          simp only [chunk_size, chunk_overlap]
          omega
        rwa [harith] at step

end RAG

namespace RAG

/-- C6: the modelled chunker produces chunks of at most 1000 characters;
chunk `k` is the 1000-character window of the text at offset `800 * k`, so
output order matches document order; and every non-final chunk has exactly
1000 characters and shares exactly its last 200 characters with the first
200 characters of the following chunk. -/
theorem c6_chunk_size_overlap_order (s : String) :
    (∀ c ∈ splitText s, c.length ≤ 1000) ∧
    (∀ k, k < (splitText s).length →
      (splitText s)[k]? = some (String.mk ((s.data.drop (800 * k)).take 1000))) ∧
    (∀ k, k + 1 < (splitText s).length →
      ∃ c c' : String, (splitText s)[k]? = some c ∧ (splitText s)[k + 1]? = some c' ∧
        c.length = 1000 ∧ c.data.drop 800 = c'.data.take 200 ∧
        (c.data.drop 800).length = 200) := by
  have hfl : s.data.length ≤ s.data.length := Nat.le_refl _
  refine ⟨?_, ?_, ?_⟩
  · intro c hc
    simp only [splitText, List.mem_map] at hc
    obtain ⟨cl, hcl, rfl⟩ := hc
    exact splitChars_le s.data.length s.data hfl cl hcl
  · intro k hk
    have hk' : k < (splitChars s.data.length s.data).length := by
      simpa [splitText] using hk
    simp only [splitText, List.getElem?_map, splitChars_get s.data.length s.data hfl k hk']
    rfl
  · intro k hk
    have hk1 : k < (splitText s).length := Nat.lt_of_succ_lt hk
    have hkc : k < (splitChars s.data.length s.data).length := by
      simpa [splitText] using hk1
    have hkc1 : k + 1 < (splitChars s.data.length s.data).length := by
      simpa [splitText] using hk
    have hfull := splitChars_full s.data.length s.data hfl k hkc1
    refine ⟨String.mk ((s.data.drop (800 * k)).take 1000),
            String.mk ((s.data.drop (800 * (k + 1))).take 1000), ?_, ?_, ?_, ?_, ?_⟩
    · simp only [splitText, List.getElem?_map, splitChars_get s.data.length s.data hfl k hkc]
      rfl
    · simp only [splitText, List.getElem?_map,
        splitChars_get s.data.length s.data hfl (k + 1) hkc1]
      rfl
    · show ((s.data.drop (800 * k)).take 1000).length = 1000
      rw [List.length_take]
      omega
    · show ((s.data.drop (800 * k)).take 1000).drop 800 =
        ((s.data.drop (800 * (k + 1))).take 1000).take 200
      rw [List.drop_take, List.take_take, List.drop_drop]
      have h1 : (1000 : Nat) - 800 = 200 := by norm_num
      have h2 : min 200 1000 = 200 := by norm_num
      have h3 : 800 * k + 800 = 800 * (k + 1) := by omega
      rw [h1, h2, h3]
    · show (((s.data.drop (800 * k)).take 1000).drop 800).length = 200
      rw [List.length_drop, List.length_take]
      omega

/-- A 1200-character text, long enough for two overlapping chunks. -/
def longText : String := String.mk (List.replicate 1200 'a')

set_option maxRecDepth 40000 in
/-- C6 witness: the 1200-character text yields a 1000-character first chunk
and a final chunk sharing exactly 200 characters with it. -/
theorem c6_chunk_size_overlap_order_witness :
    (splitText longText).length = 2 ∧
    (∃ c c' : String, (splitText longText)[0]? = some c ∧
      (splitText longText)[1]? = some c' ∧
      c.length = 1000 ∧ c.data.drop 800 = c'.data.take 200 ∧
      (c.data.drop 800).length = 200) :=
  ⟨by decide, (c6_chunk_size_overlap_order longText).2.2 0 (by decide)⟩

end RAG

namespace RAG

/-- The head of `dropWhile p` never satisfies `p`. -/
lemma head?_dropWhile_false (p : Char → Bool) (l : List Char) (c : Char)
    (h : (l.dropWhile p).head? = some c) : p c = false := by
  induction l with
  | nil => simp [List.dropWhile] at h
  | cons a l ih =>
    by_cases hp : p a
    · rw [List.dropWhile_cons_of_pos hp] at h
      exact ih h
    · rw [List.dropWhile_cons_of_neg hp] at h
      simp only [List.head?_cons, Option.some.injEq] at h
      subst h
      cases hb : p a with
      | false => rfl
      | true => exact absurd hb hp

/-- The left-trimmed character list splits into the stripped core followed by
a trailing run of whitespace. -/
lemma dropWhile_eq_strip_append (s : String) :
    s.data.dropWhile isPySpace =
      (pyStrip s).data ++
        ((s.data.dropWhile isPySpace).reverse.takeWhile isPySpace).reverse := by
  conv_lhs => rw [← List.reverse_reverse (s.data.dropWhile isPySpace),
    ← List.takeWhile_append_dropWhile (p := isPySpace)
      (l := (s.data.dropWhile isPySpace).reverse)]
  rw [List.reverse_append]
  rfl

/-- `pyStrip` only removes characters: the original text is a whitespace
prefix, then the stripped text, then a whitespace suffix. -/
lemma pyStrip_decomp (s : String) :
    ∃ pre suf : List Char,
      s.data = pre ++ (pyStrip s).data ++ suf ∧
      (∀ c ∈ pre, isPySpace c = true) ∧ (∀ c ∈ suf, isPySpace c = true) := by
  refine ⟨s.data.takeWhile isPySpace,
    ((s.data.dropWhile isPySpace).reverse.takeWhile isPySpace).reverse, ?_, ?_, ?_⟩
  · conv_lhs => rw [← List.takeWhile_append_dropWhile (p := isPySpace) (l := s.data),
      dropWhile_eq_strip_append s]
    rw [List.append_assoc]
  · intro c hc
    exact List.mem_takeWhile_imp hc
  · intro c hc
    rw [List.mem_reverse] at hc
    exact List.mem_takeWhile_imp hc

/-- The stripped text does not start with whitespace. -/
lemma pyStrip_no_lead (s : String) (c : Char)
    (h : (pyStrip s).data.head? = some c) : isPySpace c = false := by
  apply head?_dropWhile_false isPySpace s.data c
  rw [dropWhile_eq_strip_append s, List.head?_append, h]
  rfl

/-- The stripped text does not end with whitespace. -/
lemma pyStrip_no_trail (s : String) (c : Char)
    (h : (pyStrip s).data.getLast? = some c) : isPySpace c = false := by
  have hrev : (pyStrip s).data.reverse =
      (s.data.dropWhile isPySpace).reverse.dropWhile isPySpace := by
    show (((s.data.dropWhile isPySpace).reverse.dropWhile isPySpace).reverse).reverse = _
    rw [List.reverse_reverse]
  apply head?_dropWhile_false isPySpace (s.data.dropWhile isPySpace).reverse c
  rw [← hrev, List.head?_reverse]
  exact h

/-- C7: `generate_title` returns the chat model's text stripped of leading
and trailing whitespace and nothing else (the original is whitespace, then
the returned text, then whitespace, and the returned text neither starts nor
ends with whitespace), while `generate_response` returns the chat model's
text unmodified. -/
theorem c7_title_strips_response_unmodified (env : GenEnv) (u a q : String)
    (h : env.query (env.embed_query q) 3 true ≠ []) :
    (generate_title env u a).1 = pyStrip (env.llm (titleMessages u a)) ∧
    (∃ pre suf : List Char,
      (env.llm (titleMessages u a)).data =
        pre ++ ((generate_title env u a).1).data ++ suf ∧
      (∀ c ∈ pre, isPySpace c = true) ∧ (∀ c ∈ suf, isPySpace c = true)) ∧
    (∀ c, ((generate_title env u a).1).data.head? = some c → isPySpace c = false) ∧
    (∀ c, ((generate_title env u a).1).data.getLast? = some c → isPySpace c = false) ∧
    (generate_response env q).1 =
      env.llm (responseMessages (env.query (env.embed_query q) 3 true) q) := by
  have h' : (env.query (env.embed_query q) 3 true).isEmpty = false := by
    cases hq : env.query (env.embed_query q) 3 true
    · exact absurd hq h
    · rfl
  exact ⟨rfl, pyStrip_decomp (env.llm (titleMessages u a)),
    pyStrip_no_lead (env.llm (titleMessages u a)),
    pyStrip_no_trail (env.llm (titleMessages u a)),
    by simp [generate_response, h']⟩

/-- A concrete generation environment whose chat model returns the spec's
mocked title text, surrounded by whitespace. -/
def titleEnv : GenEnv :=
  { embed_query := fun _ => [],
    query := fun _ _ _ => [{ text := "ctx" }],
    llm := fun _ => "  Azure Cloud Basics.  " }

/-- C7 witness: the mocked model output `"  Azure Cloud Basics.  "` is
returned as `"Azure Cloud Basics."` by `generate_title` (internal punctuation
kept) and unmodified by `generate_response`. -/
theorem c7_title_strips_response_unmodified_witness :
    (generate_title titleEnv "u" "a").1 = "Azure Cloud Basics." ∧
    (generate_response titleEnv "q").1 = "  Azure Cloud Basics.  " := by
  have h := c7_title_strips_response_unmodified titleEnv "u" "a" "q" (by decide)
  refine ⟨h.1.trans (by decide), h.2.2.2.2.trans rfl⟩

end RAG
